import Mathlib

/-!
Verification development for the gnosara-instantmessaging repository.

The definitions below are a shallow embedding of the Python sources:
`improved_summarize_two_video_batch.py` (JSON extraction, repair, validation,
corrective-fix retry), `summary_queue.py` (queue / ledger operations),
`queue_manager_module.py` (pending-list enqueue) and
`post_scheduler_integration.py` (multi-destination delivery tracking).
Stateful code is modelled by explicit state passing; the external
text-generation and delivery collaborators are modelled as oracles.
-/

set_option linter.unusedVariables false

/-- JSON values as handled by Python's `json` module.  Numbers are modelled as
integers: every JSON literal appearing in the claims and in the concrete
inputs below is an integer, so the float form is never exercised. -/
inductive Json where
  | null : Json
  | bool : Bool → Json
  | num : Int → Json
  | str : String → Json
  | arr : List Json → Json
  | obj : List (String × Json) → Json

/-- Whitespace accepted between JSON tokens by `json.loads`. -/
def isJsonWs (c : Char) : Bool := c = ' ' || c = '\t' || c = '\n' || c = '\r'

/-- Python's regex class `\s` (ASCII): space, tab, newline, CR, VT, FF. -/
def isPySpace (c : Char) : Bool :=
  c = ' ' || c = '\t' || c = '\n' || c = '\r' || c = '\x0b' || c = '\x0c'

/-- Drop leading JSON whitespace. -/
def skipWs : List Char → List Char
  | [] => []
  | c :: cs => if isJsonWs c then skipWs cs else c :: cs

/-- `leadsWith n h` is true when `n` is an initial segment of `h`. -/
def leadsWith : List Char → List Char → Bool
  | [], _ => true
  | _ :: _, [] => false
  | a :: as, b :: bs => a = b && leadsWith as bs

/-- Python's substring test `needle in hay`. -/
def containsSub (needle : List Char) : List Char → Bool
  | [] => needle.isEmpty
  | c :: cs => leadsWith needle (c :: cs) || containsSub needle cs

/-- JSON string escape characters recognised by the embedded parser. -/
def escChar (e : Char) : Option Char :=
  if e = 'n' then some '\n'
  else if e = 't' then some '\t'
  else if e = 'r' then some '\r'
  else if e = 'b' then some '\x08'
  else if e = 'f' then some '\x0c'
  else if e = '"' || e = '\\' || e = '/' then some e
  else none

/-- Parse the body of a JSON string literal (opening quote already consumed).
`json.loads` in strict mode rejects raw control characters. -/
def parseStrLit : List Char → List Char → Option (String × List Char)
  | [], _ => none
  | '"' :: rest, acc => some (String.mk acc.reverse, rest)
  | '\\' :: rest, acc =>
    match rest with
    | [] => none
    | e :: rest' =>
      match escChar e with
      | some c => parseStrLit rest' (c :: acc)
      | none => none
  | c :: rest, acc => if c.toNat < 32 then none else parseStrLit rest (c :: acc)

/-- Digits to a natural number. -/
def digitsToNat (ds : List Char) : Nat :=
  ds.foldl (fun acc d => acc * 10 + (d.toNat - 48)) 0

/-- Parse a JSON integer literal; `json.loads` rejects leading zeros. -/
def parseIntLit (cs : List Char) : Option (Int × List Char) :=
  let (neg, cs') := match cs with
    | '-' :: rest => (true, rest)
    | _ => (false, cs)
  let ds := cs'.takeWhile Char.isDigit
  let rest := cs'.drop ds.length
  match ds with
  | [] => none
  | [_] => some ((if neg then -(digitsToNat ds : Int) else (digitsToNat ds : Int)), rest)
  | d :: _ :: _ =>
    if d = '0' then none
    else some ((if neg then -(digitsToNat ds : Int) else (digitsToNat ds : Int)), rest)

mutual

/-- Recursive-descent JSON value parser (fuel-bounded; the fuel handed out by
`jsonLoads` always suffices since every nested value consumes input). -/
def parseVal : Nat → List Char → Option (Json × List Char)
  | 0, _ => none
  | fuel + 1, cs =>
    match skipWs cs with
    | [] => none
    | '{' :: rest =>
      (match skipWs rest with
       | '}' :: rest2 => some (Json.obj [], rest2)
       | _ => parseObjItems fuel rest [])
    | '[' :: rest =>
      (match skipWs rest with
       | ']' :: rest2 => some (Json.arr [], rest2)
       | _ => parseArrItems fuel rest [])
    | '"' :: rest =>
      (match parseStrLit rest [] with
       | some (s, rest2) => some (Json.str s, rest2)
       | none => none)
    | c :: rest =>
      if leadsWith ['t', 'r', 'u', 'e'] (c :: rest) then
        some (Json.bool true, (c :: rest).drop 4)
      else if leadsWith ['f', 'a', 'l', 's', 'e'] (c :: rest) then
        some (Json.bool false, (c :: rest).drop 5)
      else if leadsWith ['n', 'u', 'l', 'l'] (c :: rest) then
        some (Json.null, (c :: rest).drop 4)
      else if c = '-' || c.isDigit then
        (match parseIntLit (c :: rest) with
         | some (n, rest2) => some (Json.num n, rest2)
         | none => none)
      else none

/-- Parse `"key": value (, "key": value)* }` inside an object. -/
def parseObjItems : Nat → List Char → List (String × Json) → Option (Json × List Char)
  | 0, _, _ => none
  | fuel + 1, cs, acc =>
    match skipWs cs with
    | '"' :: rest =>
      (match parseStrLit rest [] with
       | some (key, rest2) =>
         (match skipWs rest2 with
          | ':' :: rest3 =>
            (match parseVal fuel rest3 with
             | some (v, rest4) =>
               (match skipWs rest4 with
                | ',' :: rest5 => parseObjItems fuel rest5 (acc ++ [(key, v)])
                | '}' :: rest5 => some (Json.obj (acc ++ [(key, v)]), rest5)
                | _ => none)
             | none => none)
          | _ => none)
       | none => none)
    | _ => none

/-- Parse `value (, value)* ]` inside an array. -/
def parseArrItems : Nat → List Char → List Json → Option (Json × List Char)
  | 0, _, _ => none
  | fuel + 1, cs, acc =>
    match parseVal fuel cs with
    | some (v, rest) =>
      (match skipWs rest with
       | ',' :: rest2 => parseArrItems fuel rest2 (acc ++ [v])
       | ']' :: rest2 => some (Json.arr (acc ++ [v]), rest2)
       | _ => none)
    | none => none

end

/-- Python's `json.loads`: parse one JSON document, rejecting trailing data.
Strict: no trailing commas, keys must be double-quoted. -/
def jsonLoads (s : String) : Option Json :=
  let cs := s.toList
  match parseVal (2 * cs.length + 2) cs with
  | some (v, rest) => if (skipWs rest).isEmpty then some v else none
  | none => none


/-- The sentinel delimiter used by `extract_json_objects`. -/
def SENTINEL : List Char := ("--- END OF SUMMARY ---").toList

/-- Python's `str.split(sep)` for a non-empty separator (fuel-bounded scan;
the fuel handed out below always suffices since each step consumes input). -/
def splitOnDelimF : Nat → List Char → List Char → List Char → List (List Char)
  | 0, _, text, acc => [acc.reverse ++ text]
  | _ + 1, _, [], acc => [acc.reverse]
  | fuel + 1, delim, c :: cs, acc =>
    if leadsWith delim (c :: cs) then
      acc.reverse :: splitOnDelimF fuel delim ((c :: cs).drop delim.length) []
    else splitOnDelimF fuel delim cs (c :: acc)

/-- Python's `str.strip()` (ASCII whitespace). -/
def stripPy (cs : List Char) : List Char :=
  ((cs.dropWhile isPySpace).reverse.dropWhile isPySpace).reverse

/-- The delimiter strategy of `extract_json_objects`: split on the sentinel,
strip each part, keep the parts that parse strictly. -/
def delimExtract (text : List Char) : List Json :=
  (splitOnDelimF (text.length + 1) SENTINEL text []).foldl
    (fun acc part =>
      let cleaned := stripPy part
      if cleaned.isEmpty then acc
      else
        match jsonLoads (String.mk cleaned) with
        | some obj => acc ++ [obj]
        | none => acc) []

/-- The brace-count scan of `extract_json_objects`: track `{`/`}` depth,
parse each top-level balanced span strictly and independently. -/
def braceScanGo : List Char → Bool → Nat → List Char → List Json
  | [], _, _, _ => []
  | c :: rest, inObject, braceCount, current =>
    if c = '{' && !inObject then braceScanGo rest true 1 ['{']
    else if inObject then
      let cur := current ++ [c]
      if c = '{' then braceScanGo rest true (braceCount + 1) cur
      else if c = '}' then
        if braceCount - 1 = 0 then
          (match jsonLoads (String.mk cur) with
           | some obj => [obj]
           | none => []) ++ braceScanGo rest false 0 []
        else braceScanGo rest true (braceCount - 1) cur
      else braceScanGo rest inObject braceCount cur
    else braceScanGo rest inObject braceCount current

/-- `fix_common_json_errors` pass for `re.sub(r',\s*X', 'X', s)` with `X` a
closing bracket: remove a trailing separator before the closing bracket. -/
def fixSepF (close : Char) : Nat → List Char → List Char
  | 0, cs => cs
  | _ + 1, [] => []
  | fuel + 1, c :: cs =>
    if c = ',' then
      let ws := cs.takeWhile isPySpace
      match cs.drop ws.length with
      | d :: rest' =>
        if d = close then close :: fixSepF close fuel rest'
        else c :: fixSepF close fuel cs
      | [] => c :: fixSepF close fuel cs
    else c :: fixSepF close fuel cs

/-- `fix_common_json_errors` pass for
`re.sub(r'([{,])\s*([a-zA-Z0-9_]+)\s*:', r'\1"\2":', s)`: quote bare
identifier-like keys. -/
def quoteKeysF : Nat → List Char → List Char
  | 0, cs => cs
  | _ + 1, [] => []
  | fuel + 1, c :: cs =>
    if c = '{' || c = ',' then
      let ws1 := cs.takeWhile isPySpace
      let a1 := cs.drop ws1.length
      let ident := a1.takeWhile (fun ch => ch.isAlphanum || ch = '_')
      let a2 := a1.drop ident.length
      let ws2 := a2.takeWhile isPySpace
      match ident, a2.drop ws2.length with
      | _ :: _, ':' :: rest => c :: '"' :: (ident ++ '"' :: ':' :: quoteKeysF fuel rest)
      | _, _ => c :: quoteKeysF fuel cs
    else c :: quoteKeysF fuel cs

/-- `fix_common_json_errors`: remove trailing commas before `]` and `}`, then
quote bare identifier-like keys. -/
def fix_common_json_errors (s : String) : String :=
  let cs1 := fixSepF ']' (s.toList.length + 1) s.toList
  let cs2 := fixSepF '}' (cs1.length + 1) cs1
  String.mk (quoteKeysF (cs2.length + 1) cs2)

/-- The aggressive-recovery scan `parse_robust_json`: brace-depth capture,
apply `fix_common_json_errors` to each captured span, then parse it. -/
def robustGo : List Char → Int → List Char → Bool → List Json
  | [], _, _, _ => []
  | c :: rest, braceCount, current, capturing =>
    let st1 : Int × List Char × Bool :=
      if c = '{' then
        if braceCount = 0 then (braceCount + 1, [], true)
        else (braceCount + 1, current, capturing)
      else (braceCount, current, capturing)
    match st1 with
    | (bc1, cur1, cap1) =>
      let cur2 := if cap1 then cur1 ++ [c] else cur1
      if c = '}' then
        let bc2 := bc1 - 1
        if bc2 = 0 && cap1 then
          (match jsonLoads (fix_common_json_errors (String.mk cur2)) with
           | some obj => [obj]
           | none => []) ++ robustGo rest bc2 [] false
        else robustGo rest bc2 cur2 cap1
      else robustGo rest bc1 cur2 cap1

/-- `parse_robust_json(text)`. -/
def parse_robust_json (text : String) : List Json :=
  robustGo text.toList 0 [] false

/-- `extract_json_objects(text)`: delimiter split first; if that yields
nothing, brace-count extraction; if that yields nothing, the robust parser. -/
def extract_json_objects (text : String) : List Json :=
  let cs := text.toList
  match (if containsSub SENTINEL cs then delimExtract cs else []) with
  | r :: rs => r :: rs
  | [] =>
    match braceScanGo cs false 0 [] with
    | r :: rs => r :: rs
    | [] => parse_robust_json text

/-- The extraction chain as driven by `summarize_batch`: run
`extract_json_objects`; when the candidate count differs from the batch size,
re-run `parse_robust_json` on the raw text and keep the larger result. -/
def extract_with_robust_fallback (text : String) (n : Nat) : List Json :=
  let objs := extract_json_objects text
  if objs.length ≠ n then
    let fb := parse_robust_json text
    if objs.length < fb.length then fb else objs
  else objs


/-- The five required sub-fields of the nested summary section
(`REQUIRED_FIELDS` in `improved_summarize_two_video_batch.py`). -/
def REQUIRED_FIELDS : List String :=
  [("essence"), ("top_takeaways"), ("game_changing_ideas"),
   ("things_you_can_do"), ("why_this_matters")]

/-- The sub-fields that `validate_summary` requires to be lists. -/
def LIST_FIELDS : List String :=
  [("top_takeaways"), ("game_changing_ideas"), ("things_you_can_do")]

/-- Python's `field in x` on a JSON value: key membership for a dict,
element membership for a list, substring test for a string, `TypeError`
(modelled as `none`) otherwise. -/
def pyIn (field : String) : Json → Option Bool
  | Json.obj kvs => some (kvs.any (fun kv => kv.1 = field))
  | Json.arr xs =>
    some (xs.any (fun j => match j with
      | Json.str s => s = field
      | _ => false))
  | Json.str s => some (containsSub field.toList s.toList)
  | _ => none

/-- Python's `x[field]` with a string index: dict lookup; `TypeError`
(modelled as `none`) on any non-dict value. -/
def pyGet : Json → String → Option Json
  | Json.obj kvs, field => (kvs.find? (fun kv => kv.1 = field)).map Prod.snd
  | _, _ => none

/-- The `for field in REQUIRED_FIELDS` loop of `validate_summary`:
collect a `Missing field:` violation per absent field; `none` models the
`TypeError` Python raises when the section is not a container. -/
def fieldPresenceErrors (fields : List String) (sec : Json) : Option (List String) :=
  match fields with
  | [] => some []
  | f :: fs =>
    match pyIn f sec with
    | none => none
    | some b =>
      match fieldPresenceErrors fs sec with
      | none => none
      | some rest => some (if b then rest else (("Missing field: ") ++ f) :: rest)

/-- The list-type check loop of `validate_summary`: for each field present in
the section, require its value to be a list. -/
def listTypeErrors (fields : List String) (sec : Json) : Option (List String) :=
  match fields with
  | [] => some []
  | f :: fs =>
    match pyIn f sec with
    | none => none
    | some false => listTypeErrors fs sec
    | some true =>
      match pyGet sec f with
      | none => none
      | some v =>
        match listTypeErrors fs sec with
        | none => none
        | some rest =>
          some (match v with
            | Json.arr _ => rest
            | _ => (("Field ") ++ f ++ (" is not a list")) :: rest)

/-- The required top-level field loop of `validate_summary`
(`title`, `podcaster`). -/
def topFieldErrors (summary : List (String × Json)) : List String :=
  ((([("title"), ("podcaster")]).filter
      (fun f => !(summary.any (fun kv => kv.1 = f)))).map
    (fun f => ("Missing field: ") ++ f))

/-- `validate_summary(summary, video_id)` on a parsed top-level JSON dict:
returns the violation list, or `none` when the Python code would raise a
`TypeError` (non-container nested summary value). -/
def validate_summary (summary : List (String × Json)) : Option (List String) :=
  let errs1 := topFieldErrors summary
  match (summary.find? (fun kv => kv.1 = ("summary"))).map Prod.snd with
  | none => some (errs1 ++ [("Missing summary section")])
  | some sec =>
    match fieldPresenceErrors REQUIRED_FIELDS sec with
    | none => none
    | some errs2 =>
      match listTypeErrors LIST_FIELDS sec with
      | none => none
      | some errs3 => some (errs1 ++ errs2 ++ errs3)

/-- The spec's condition on the nested summary value: an object holding all
five required sub-fields, with each sequence-typed field an actual array. -/
def summary_section_ok : Option Json → Bool
  | some (Json.obj kvs) =>
    (REQUIRED_FIELDS.all (fun f => kvs.any (fun kv => kv.1 = f))) &&
    (LIST_FIELDS.all (fun f =>
       match (kvs.find? (fun kv => kv.1 = f)).map Prod.snd with
       | some (Json.arr _) => true
       | _ => false))
  | _ => false

/-- The claim's well-formedness condition, written from the spec's words: all
required top-level fields, a nested summary object with all five required
sub-fields, and each sequence-typed field actually a sequence. -/
def spec_record_valid (summary : List (String × Json)) : Bool :=
  (summary.any (fun kv => kv.1 = ("title"))) &&
  (summary.any (fun kv => kv.1 = ("podcaster"))) &&
  summary_section_ok ((summary.find? (fun kv => kv.1 = ("summary"))).map Prod.snd)


/-- Batch size bounds from `summary_queue.py`. -/
def MIN_BATCH_SIZE : Nat := 2

/-- Maximum batch size from `summary_queue.py`. -/
def MAX_BATCH_SIZE : Nat := 5

/-- A dict-shaped entry of the processing queue; optional fields model keys
that `item.get(...)` may find absent. -/
structure QRecord where
  id : String
  channel : Option String
  title : Option String
  text : Option String
  found_at : Option String
deriving DecidableEq

/-- A processing-queue entry: a bare string id (legacy format) or a record. -/
inductive QItem where
  | strId : String → QItem
  | record : QRecord → QItem
deriving DecidableEq

/-- The id of a queue entry. -/
def qItemId : QItem → String
  | QItem.strId s => s
  | QItem.record r => r.id

/-- A normalized batch item as built by `get_next_batch` (further metadata
keys are carried along unchanged in the source; no claim concerns them). -/
structure BatchItem where
  id : String
  channel : String
  title : String
  text : String
  found_at : String
deriving DecidableEq

/-- The normalization `get_next_batch` applies to each raw batch entry;
`now` stands for `datetime.now().isoformat()`. -/
def normalizeItem (now : String) : QItem → BatchItem
  | QItem.record r =>
    ⟨r.id, r.channel.getD ("Unknown"), r.title.getD (("Video ") ++ r.id),
      r.text.getD (""), r.found_at.getD now⟩
  | QItem.strId s =>
    ⟨s, ("Unknown"), ("Video ") ++ s, (""), now⟩

/-- `get_next_batch`: empty below `MIN_BATCH_SIZE`, otherwise the oldest
`min MAX_BATCH_SIZE len` entries, normalized.  It only reads the queue. -/
def get_next_batch (queue : List QItem) (now : String) : List BatchItem :=
  if queue.length < MIN_BATCH_SIZE then []
  else ((queue.take (min MAX_BATCH_SIZE queue.length)).map (normalizeItem now))

/-- The persisted processing-queue file (`processing_queue.json`). -/
structure QueueFile where
  pending : List QItem
deriving DecidableEq

/-- `get_next_batch` as a step on the persisted queue state: the source calls
only `load_processing_queue` and never `save_processing_queue`, so the
post-state equals the pre-state. -/
def next_batch_step (st : QueueFile) (now : String) : List BatchItem × QueueFile :=
  (get_next_batch st.pending now, st)

/-- The summary status file (`logs/summary_status.json`). -/
structure SummaryStatus where
  date : String
  pending : List String
  batched : List String
  completed : List String
  failed : List String
  posted : List String
deriving DecidableEq

/-- `_init_summary_status`: today's date with all five lists empty. -/
def init_summary_status (today : String) : SummaryStatus :=
  ⟨today, [], [], [], [], []⟩

/-- `load_summary_status`: re-initialize the whole structure whenever the
recorded date differs from today, else return the file contents. -/
def load_summary_status (fileData : SummaryStatus) (today : String) : SummaryStatus :=
  if fileData.date = today then fileData else init_summary_status today

/-- `mark_as_batched`: extend `batched` with the batch ids, then de-duplicate
(`list(set(...))`; the model fixes an order, Python's is unspecified — all
claims about it are membership statements). -/
def mark_as_batched (status : SummaryStatus) (batchIds : List String) : SummaryStatus :=
  { status with batched := (status.batched ++ batchIds).dedup }

/-- `mark_as_posted`: append each id not already present to `posted`. -/
def mark_as_posted (status : SummaryStatus) (videoIds : List String) : SummaryStatus :=
  { status with posted :=
      videoIds.foldl (fun acc vid => if vid ∈ acc then acc else acc ++ [vid]) status.posted }

/-- The channel sanitizer used when naming summary artifacts in
`process_batch`: every non-alphanumeric character becomes an underscore. -/
def sanitize_channel (channel : String) : String :=
  String.mk (channel.toList.map (fun c => if c.isAlphanum then c else '_'))

/-- The artifact file name written by `process_batch`. -/
def summary_filename (videoId channel : String) : String :=
  videoId ++ ("_") ++ sanitize_channel channel ++ (".json")

/-- The id re-derivation used by `get_summary_files`:
`filename.split("_")[0]`, i.e. the portion before the first underscore. -/
def extract_video_id (filename : String) : String :=
  String.mk (filename.toList.takeWhile (fun c => c ≠ '_'))

/-- `get_summary_files`: pair each file with the id derived from its name,
dropping files whose derived id is falsy (empty). -/
def get_summary_files (filenames : List String) : List (String × String) :=
  filenames.filterMap (fun f =>
    let vid := extract_video_id f
    if vid = ("") then none else some (vid, f))

/-- `get_unposted_summaries`: load the (possibly day-reset) status and keep
the summary files whose id is not in its `posted` list. -/
def get_unposted_summaries (filenames : List String) (statusFile : SummaryStatus)
    (today : String) : List (String × String) :=
  let status := load_summary_status statusFile today
  (get_summary_files filenames).filter (fun p => !(status.posted.contains p.1))

/-- A pending-list entry of `queue_manager_module.py` (metadata beyond the id
is irrelevant to the claims; one representative field is kept). -/
structure PendVideo where
  id : String
  title : String
deriving DecidableEq

/-- The two files owned by `QueueManager`: the pending list and the
`seen_videos.json` done map (its ids suffice here). -/
structure QMState where
  pending : List PendVideo
  done : List String
deriving DecidableEq

/-- `add_to_pending`: refuse when the id is already in the pending list,
else append.  Only the pending list is consulted — the `done` map is not. -/
def add_to_pending (st : QMState) (video : PendVideo) : Bool × QMState :=
  if st.pending.any (fun v => v.id = video.id) then (false, st)
  else (true, { st with pending := st.pending ++ [video] })

/-- The configured destination list of `post_scheduler_integration.py`. -/
def PLATFORMS : List String := [("twitter"), ("facebook"), ("telegram")]

/-- One record of the `seen_videos.json` done map. -/
structure SeenRecord where
  title : String
  status : String
  posted_to : List String
  posted_at : Option String
deriving DecidableEq

/-- The `posted_to` update in `_update_queue_manager_status`: extend with the
successful platforms, then `list(set(...))` (modelled as `dedup`; Python's
set order is unspecified, membership is what the claims state). -/
def update_posted_to (postedTo successful : List String) : List String :=
  (postedTo ++ successful).dedup

/-- The per-record update in `_update_queue_manager_status`: grow `posted_to`
and, when at least one platform succeeded, set status `posted` and stamp
`posted_at` (`now`). -/
def update_seen_record (r : SeenRecord) (successful : List String) (now : String) : SeenRecord :=
  let r1 := { r with posted_to := update_posted_to r.posted_to successful }
  if successful.isEmpty then r1
  else { r1 with status := ("posted"), posted_at := some now }

/-- The platforms a given video was successfully posted to
(`successful_platforms` in `_update_queue_manager_status`). -/
def successful_platforms (postedByPlatform : List (String × List String))
    (videoId : String) : List String :=
  (postedByPlatform.filter (fun p => p.2.contains videoId)).map Prod.fst

/-- `all(platform in attempted_platforms for platform in PLATFORMS)`. -/
def all_platforms_attempted (attempted : List String) : Bool :=
  PLATFORMS.all (fun p => attempted.contains p)

/-- `any(video_id in ids for ids in posted_by_platform.values())`. -/
def any_platform_success (postedByPlatform : List (String × List String))
    (videoId : String) : Bool :=
  postedByPlatform.any (fun p => p.2.contains videoId)

/-- The completion policy of `_update_queue_manager_status`: a video is fully
processed when every configured platform was attempted and at least one
succeeded. -/
def fully_processed (postedByPlatform : List (String × List String))
    (attemptsByVideo : List (String × List String)) : List String :=
  ((attemptsByVideo.filter (fun av =>
      all_platforms_attempted av.2 && any_platform_success postedByPlatform av.1)).map
    Prod.fst)

/-- `_update_queue_manager_status`: update each attempted video's seen-videos
record, then mark the fully processed ones as posted in the status file. -/
def update_queue_manager_status (postedByPlatform : List (String × List String))
    (attemptsByVideo : List (String × List String))
    (seen : List (String × SeenRecord)) (status : SummaryStatus) (now : String) :
    List (String × SeenRecord) × SummaryStatus :=
  let seen' := attemptsByVideo.foldl (fun acc av =>
    acc.map (fun kv =>
      if kv.1 = av.1 then
        (kv.1, update_seen_record kv.2 (successful_platforms postedByPlatform av.1) now)
      else kv)) seen
  (seen', mark_as_posted status (fully_processed postedByPlatform attemptsByVideo))

/-- `_get_posted_videos(...)[platform]`: the per-platform posted ids of the
DAILY LOG (`logs/daily_log.json`), defaulting to the empty list. -/
def get_posted_videos (dailyPosted : List (String × List String)) (platform : String) :
    List String :=
  (((dailyPosted.find? (fun p => p.1 = platform)).map Prod.snd).getD [])

/-- `_should_post_to_platform`: with `force_all` always post; otherwise post
exactly when the daily log does not record the video for this platform. -/
def should_post_to_platform (dailyPosted : List (String × List String))
    (videoId platform : String) (forceAll : Bool) : Bool :=
  if forceAll then true
  else !((get_posted_videos dailyPosted platform).contains videoId)

/-- The persisted state read by a posting cycle: the seen-videos ledger, the
summary status file, the daily log's posted map, and the artifact files. -/
structure SchedState where
  seenDone : List (String × SeenRecord)
  statusFile : SummaryStatus
  dailyPosted : List (String × List String)
  summaryFiles : List String
deriving DecidableEq

/-- Whether `post_unposted_summaries` reaches the delivery attempt for the
pair (video, platform): the video is selected by `get_unposted_summaries`
and `_should_post_to_platform` does not skip the platform. -/
def cycle_attempts_pair (st : SchedState) (today : String)
    (videoId platform : String) (forceAll : Bool) : Bool :=
  ((get_unposted_summaries st.summaryFiles st.statusFile today).any
      (fun p => p.1 = videoId)) &&
  should_post_to_platform st.dailyPosted videoId platform forceAll

/-- Whether the seen-videos ledger records the video as already delivered to
the platform. -/
def ledger_records_posted (st : SchedState) (videoId platform : String) : Bool :=
  st.seenDone.any (fun kv => kv.1 = videoId && kv.2.posted_to.contains platform)

/-- Retry bound of the corrective fix call
(`MAX_RETRIES` in `improved_summarize_two_video_batch.py`). -/
def FIX_MAX_RETRIES : Nat := 3

/-- Fixed delay, in seconds, between consecutive fix attempts. -/
def RETRY_DELAY : Nat := 5

/-- Outcome of one Claude-fix API attempt, as distinguished by the source:
non-200 response, raised exception, or a 200 response with body text. -/
inductive FixResp where
  | httpError : FixResp
  | exn : FixResp
  | ok : String → FixResp

/-- `call_claude_fix` against an oracle giving each attempt's API outcome.
Result: the returned value, the number of attempts made, and the total
seconds slept (`time.sleep(RETRY_DELAY)` before each retry).  The recursion
mirrors the source's `call_claude_fix(raw_text, retry_count + 1)` guarded by
`retry_count < MAX_RETRIES - 1`. -/
def call_claude_fix (oracle : Nat → FixResp) (retryCount : Nat) :
    Option Json × Nat × Nat :=
  match oracle retryCount with
  | FixResp.ok text =>
    (match jsonLoads text with
     | some j => (some j, 1, 0)
     | none =>
       match extract_json_objects text with
       | x :: _ => (some x, 1, 0)
       | [] =>
         if _h : retryCount < FIX_MAX_RETRIES - 1 then
           let r := call_claude_fix oracle (retryCount + 1)
           (r.1, r.2.1 + 1, r.2.2 + RETRY_DELAY)
         else (none, 1, 0))
  | _ =>
    if _h : retryCount < FIX_MAX_RETRIES - 1 then
      let r := call_claude_fix oracle (retryCount + 1)
      (r.1, r.2.1 + 1, r.2.2 + RETRY_DELAY)
    else (none, 1, 0)
termination_by FIX_MAX_RETRIES - retryCount
decreasing_by all_goals simp_all [FIX_MAX_RETRIES]; omega

/-- An attempt that produces no value: non-200, exception, or a body that
neither parses nor yields any extracted object. -/
def attempt_fails (r : FixResp) : Bool :=
  match r with
  | FixResp.ok text => (jsonLoads text).isNone && (extract_json_objects text).isEmpty
  | _ => true

/-- `takeWhile` stops exactly at the first failing element. -/
theorem takeWhile_append_stop {p : Char → Bool} :
    ∀ (l1 : List Char) (x : Char) (l2 : List Char),
      (∀ c ∈ l1, p c = true) → p x = false →
      (l1 ++ x :: l2).takeWhile p = l1 := by
  intro l1 x l2 h hx
  induction l1 with
  | nil => simp [List.takeWhile, hx]
  | cons a t ih =>
    have ha : p a = true := h a (by simp)
    simp only [List.cons_append, List.takeWhile_cons, ha]
    simp [ih (fun c hc => h c (by simp [hc]))]

/-- Rebuilding a string from its character list is the identity. -/
theorem stringMk_toList (s : String) : String.mk s.toList = s := by
  cases s; rfl

/-- C10: loading the summary status store on a date different from its
recorded date resets every set — pending, batched, completed, failed and
posted — to empty, so none of them (including the posted set consulted by
`get_unposted_summaries`) persists across a date change. -/
theorem C10_daily_reset (fileData : SummaryStatus) (today : String)
    (filenames : List String) (h : fileData.date ≠ today) :
    load_summary_status fileData today = init_summary_status today ∧
    (load_summary_status fileData today).pending = [] ∧
    (load_summary_status fileData today).batched = [] ∧
    (load_summary_status fileData today).completed = [] ∧
    (load_summary_status fileData today).failed = [] ∧
    (load_summary_status fileData today).posted = [] ∧
    get_unposted_summaries filenames fileData today = get_summary_files filenames := by
  have hl : load_summary_status fileData today = init_summary_status today := by
    unfold load_summary_status
    simp [h]
  refine ⟨hl, ?_, ?_, ?_, ?_, ?_, ?_⟩ <;>
    simp [hl, get_unposted_summaries, init_summary_status, List.contains]

/-- C10 witness: a store recorded on 2025-01-01 loaded on 2025-01-02 comes
back fully reset and filters out nothing from the summary files. -/
theorem C10_daily_reset_witness :
    ((⟨("2025-01-01"), [("p1")], [("b1")], [("c1")], [("f1")], [("v1")]⟩ :
        SummaryStatus).date ≠ ("2025-01-02")) ∧
    get_unposted_summaries [("v1_News.json")]
        ⟨("2025-01-01"), [("p1")], [("b1")], [("c1")], [("f1")], [("v1")]⟩
        ("2025-01-02")
      = get_summary_files [("v1_News.json")] :=
  ⟨by decide,
   (C10_daily_reset ⟨("2025-01-01"), [("p1")], [("b1")], [("c1")], [("f1")], [("v1")]⟩
      ("2025-01-02") [("v1_News.json")] (by decide)).2.2.2.2.2.2⟩

/-- C9 counterexample: for the id `a_b` (underscores are legal in video ids)
the id re-derived from the artifact file name is `a`, not the original id —
the claimed round trip fails. -/
theorem C9_counterexample :
    extract_video_id (summary_filename ("a_b") ("News")) ≠ ("a_b") ∧
    extract_video_id (summary_filename ("a_b") ("News")) = ("a") := by
  constructor <;> decide

/-- C9 amended: the artifact is written to `id_sanitizedchannel.json` and the
id re-derived from that name (the portion before the first underscore) equals
the original id for every id that itself contains no underscore; ids with an
underscore are truncated at it. -/
theorem C9_roundtrip (id chan : String) (h : ∀ c ∈ id.toList, c ≠ '_') :
    extract_video_id (summary_filename id chan) = id := by
  unfold extract_video_id summary_filename
  have hs : (id ++ ("_") ++ sanitize_channel chan ++ (".json")).toList
      = id.toList ++ '_' :: (sanitize_channel chan ++ (".json")).toList := by
    show (id ++ ("_") ++ sanitize_channel chan ++ (".json")).data
      = id.data ++ '_' :: (sanitize_channel chan ++ (".json")).data
    simp [String.data_append]
  rw [hs, takeWhile_append_stop id.toList '_' _ ?_ (by simp)]
  · exact stringMk_toList id
  · intro c hc
    simpa using h c hc

/-- C9 witness: a concrete underscore-free id survives the round trip. -/
theorem C9_roundtrip_witness :
    (∀ c ∈ ("abc123").toList, c ≠ '_') ∧
    extract_video_id (summary_filename ("abc123") ("News Channel")) = ("abc123") :=
  ⟨by decide, C9_roundtrip ("abc123") ("News Channel") (by decide)⟩

/-- C4 counterexample: `add_to_pending` consults only the pending list, not
the done map: an id recorded as done but absent from pending is added again,
although the claim says it must not be. -/
theorem C4_counterexample :
    ((⟨[], [("v1")]⟩ : QMState).done.contains ("v1") = true) ∧
    (add_to_pending ⟨[], [("v1")]⟩ ⟨("v1"), ("Video v1")⟩).1 = true ∧
    ((add_to_pending ⟨[], [("v1")]⟩ ⟨("v1"), ("Video v1")⟩).2.pending.map
        PendVideo.id).contains ("v1") = true := by
  refine ⟨by decide, by decide, by decide⟩

/-- C4 amended: `add_to_pending` adds the item exactly when its id is not
already in the pending list (the done map is not consulted — dedup against
previously seen items is the caller's job via `get_all_seen_video_ids`),
returns whether it was newly added, and enqueuing the same id twice leaves
the pending list containing that id exactly once. -/
theorem C4_enqueue_dedup (st : QMState) (v : PendVideo) :
    ((add_to_pending st v).1 = true ↔ v.id ∉ st.pending.map PendVideo.id) ∧
    ((add_to_pending st v).2.done = st.done) ∧
    (v.id ∉ st.pending.map PendVideo.id →
      ((add_to_pending (add_to_pending st v).2 v).2.pending.map
          PendVideo.id).count v.id = 1) := by
  by_cases hc : st.pending.any (fun x => x.id = v.id)
  · have hmem : v.id ∈ st.pending.map PendVideo.id := by
      rcases List.any_eq_true.mp hc with ⟨x, hx, he⟩
      exact List.mem_map.mpr ⟨x, hx, by simpa using he⟩
    refine ⟨?_, ?_, ?_⟩
    · simp [add_to_pending, hc, hmem]
    · simp [add_to_pending, hc]
    · intro hno; exact absurd hmem hno
  · have hnmem : v.id ∉ st.pending.map PendVideo.id := by
      intro hmem
      rcases List.mem_map.mp hmem with ⟨x, hx, he⟩
      exact hc (List.any_eq_true.mpr ⟨x, hx, by simp [he]⟩)
    refine ⟨by simp [add_to_pending, hc, hnmem], by simp [add_to_pending, hc], ?_⟩
    intro _
    have h2 : ((st.pending ++ [v]).any (fun x => x.id = v.id)) = true :=
      List.any_eq_true.mpr ⟨v, by simp, by simp⟩
    simp only [add_to_pending, hc, if_false, Bool.false_eq_true, h2, if_true]
    rw [List.map_append, List.count_append]
    have : (st.pending.map PendVideo.id).count v.id = 0 :=
      List.count_eq_zero.mpr hnmem
    simp [this]

/-- C4 witness: enqueuing a fresh id twice leaves it pending exactly once. -/
theorem C4_enqueue_dedup_witness :
    (("v2") ∉ ([⟨("v1"), ("t1")⟩] : List PendVideo).map PendVideo.id) ∧
    ((add_to_pending (add_to_pending ⟨[⟨("v1"), ("t1")⟩], []⟩
        ⟨("v2"), ("t2")⟩).2 ⟨("v2"), ("t2")⟩).2.pending.map
      PendVideo.id).count ("v2") = 1 :=
  ⟨by decide,
   (C4_enqueue_dedup ⟨[⟨("v1"), ("t1")⟩], []⟩ ⟨("v2"), ("t2")⟩).2.2 (by decide)⟩

/-- The id of a normalized batch entry is the id of the raw queue entry. -/
theorem normalizeItem_id (now : String) (qi : QItem) :
    (normalizeItem now qi).id = qItemId qi := by
  cases qi <;> rfl

/-- C3 counterexample: with two pending items, `get_next_batch` returns a
batch of both items yet the persisted pending list afterwards still holds
both — the claim's "removes them from the pending list" is false, and no
`batched` mark is written by this call. -/
theorem C3_counterexample :
    (next_batch_step ⟨[QItem.strId ("v1"), QItem.strId ("v2")]⟩ ("t")).1.length = 2 ∧
    (next_batch_step ⟨[QItem.strId ("v1"), QItem.strId ("v2")]⟩ ("t")).2
      = ⟨[QItem.strId ("v1"), QItem.strId ("v2")]⟩ ∧
    (next_batch_step ⟨[QItem.strId ("v1"), QItem.strId ("v2")]⟩ ("t")).2.pending.length
      = 2 :=
  ⟨rfl, rfl, rfl⟩

/-- C3 amended: `get_next_batch` returns up to `MAX_BATCH_SIZE` (5)
oldest-first items, normalized, when at least `MIN_BATCH_SIZE` (2) are
pending, and the empty batch otherwise; in both cases it leaves the pending
list untouched (removal happens only later via `remove_from_queue`); the ids
are marked batched by the separate `mark_as_batched` call issued by
`process_batch`, which preserves previously batched ids. -/
theorem C3_next_batch (queue : List QItem) (now : String)
    (status : SummaryStatus) (ids : List String) :
    (queue.length < MIN_BATCH_SIZE → get_next_batch queue now = []) ∧
    (MIN_BATCH_SIZE ≤ queue.length →
      (get_next_batch queue now).map BatchItem.id
        = (queue.take (min MAX_BATCH_SIZE queue.length)).map qItemId) ∧
    (next_batch_step ⟨queue⟩ now).2 = ⟨queue⟩ ∧
    (∀ i ∈ ids, i ∈ (mark_as_batched status ids).batched) ∧
    (∀ b ∈ status.batched, b ∈ (mark_as_batched status ids).batched) := by
  refine ⟨?_, ?_, rfl, ?_, ?_⟩
  · intro h; simp [get_next_batch, h]
  · intro h
    unfold get_next_batch
    rw [if_neg (by omega), List.map_map]
    exact List.map_congr_left (fun qi _ => normalizeItem_id now qi)
  · intro i hi; simp [mark_as_batched, hi]
  · intro b hb; simp [mark_as_batched, hb]

/-- C3 witness: three pending items give a batch whose ids are the three
queue ids in order, while an underfull queue gives the empty batch. -/
theorem C3_next_batch_witness :
    (MIN_BATCH_SIZE ≤ ([QItem.strId ("v1"), QItem.strId ("v2"),
        QItem.strId ("v3")] : List QItem).length) ∧
    (get_next_batch [QItem.strId ("v1"), QItem.strId ("v2"), QItem.strId ("v3")]
        ("t")).map BatchItem.id
      = ([QItem.strId ("v1"), QItem.strId ("v2"), QItem.strId ("v3")].take
          (min MAX_BATCH_SIZE 3)).map qItemId ∧
    (([QItem.strId ("v1")] : List QItem).length < MIN_BATCH_SIZE) ∧
    get_next_batch [QItem.strId ("v1")] ("t") = [] :=
  ⟨by decide,
   (C3_next_batch [QItem.strId ("v1"), QItem.strId ("v2"), QItem.strId ("v3")]
      ("t") (init_summary_status ("d")) []).2.1 (by decide),
   by decide,
   (C3_next_batch [QItem.strId ("v1")] ("t") (init_summary_status ("d")) []).1
      (by decide)⟩

/-- Whatever the success list, the updated seen record's `posted_to` is the
de-duplicated union of the old set and the successes. -/
theorem update_seen_record_posted_to (r : SeenRecord) (succ : List String)
    (now : String) :
    (update_seen_record r succ now).posted_to = (r.posted_to ++ succ).dedup := by
  unfold update_seen_record update_posted_to
  by_cases h : succ.isEmpty <;> simp [h]

/-- C7: across `_update_queue_manager_status` updates, a record's `posted_to`
only grows (every destination already present stays present), is always
duplicate-free (a set, not a multiset), and recording the same destination
twice leaves it present exactly once. -/
theorem C7_posted_to_monotone (r : SeenRecord) (succ : List String)
    (now : String) (d x : String) :
    (x ∈ r.posted_to → x ∈ (update_seen_record r succ now).posted_to) ∧
    ((update_seen_record r succ now).posted_to.count x ≤ 1) ∧
    ((update_seen_record (update_seen_record r [d] now) [d] now).posted_to.count d
      = 1) := by
  refine ⟨?_, ?_, ?_⟩
  · intro hx
    rw [update_seen_record_posted_to]
    exact List.mem_dedup.mpr (List.mem_append_left _ hx)
  · rw [update_seen_record_posted_to]
    exact List.nodup_iff_count_le_one.mp (List.nodup_dedup _) x
  · rw [update_seen_record_posted_to]
    refine List.count_eq_one_of_mem (List.nodup_dedup _) ?_
    exact List.mem_dedup.mpr (List.mem_append_right _ (by simp))

/-- C7 witness: a record already posted to telegram keeps telegram after a
twitter success, and double-recording telegram keeps it exactly once. -/
theorem C7_posted_to_monotone_witness :
    (("telegram") ∈ (⟨("t"), ("completed"), [("telegram")], none⟩ :
        SeenRecord).posted_to) ∧
    (("telegram") ∈ (update_seen_record ⟨("t"), ("completed"), [("telegram")], none⟩
        [("twitter")] ("now")).posted_to) :=
  ⟨by decide,
   (C7_posted_to_monotone ⟨("t"), ("completed"), [("telegram")], none⟩
      [("twitter")] ("now") ("d") ("telegram")).1 (by decide)⟩

/-- In an association list whose keys are duplicate-free, a key determines
its value. -/
theorem assoc_value_eq_of_nodup :
    ∀ (l : List (String × List String)), (l.map Prod.fst).Nodup →
      ∀ {k : String} {a b : List String}, (k, a) ∈ l → (k, b) ∈ l → a = b := by
  intro l
  induction l with
  | nil => intro _ k a b ha; cases ha
  | cons p t ih =>
    intro hn k a b ha hb
    have hn' : p.1 ∉ t.map Prod.fst ∧ (t.map Prod.fst).Nodup := by
      simpa [List.nodup_cons] using hn
    rcases List.mem_cons.mp ha with ha1 | ha2 <;>
      rcases List.mem_cons.mp hb with hb1 | hb2
    · exact congrArg Prod.snd (ha1.trans hb1.symm)
    · exfalso
      apply hn'.1
      have : k = p.1 := by rw [← ha1]
      exact this ▸ List.mem_map.mpr ⟨(k, b), hb2, rfl⟩
    · exfalso
      apply hn'.1
      have : k = p.1 := by rw [← hb1]
      exact this ▸ List.mem_map.mpr ⟨(k, a), ha2, rfl⟩
    · exact ih hn'.2 ha2 hb2

/-- Membership in the `posted` list after `mark_as_posted`: the old entries
plus the newly marked ids. -/
theorem mem_mark_as_posted (status : SummaryStatus) (ids : List String)
    (v : String) :
    v ∈ (mark_as_posted status ids).posted ↔ v ∈ status.posted ∨ v ∈ ids := by
  unfold mark_as_posted
  suffices h : ∀ (l acc : List String),
      v ∈ l.foldl (fun acc vid => if vid ∈ acc then acc else acc ++ [vid]) acc ↔
        v ∈ acc ∨ v ∈ l by
    simpa using h ids status.posted
  intro l
  induction l with
  | nil => intro acc; simp
  | cons x xs ih =>
    intro acc
    simp only [List.foldl_cons]
    by_cases hx : x ∈ acc
    · rw [if_pos hx, ih]
      constructor
      · rintro (h | h)
        · exact Or.inl h
        · exact Or.inr (List.mem_cons_of_mem _ h)
      · rintro (h | h)
        · exact Or.inl h
        · rcases List.mem_cons.mp h with h1 | h2
          · exact Or.inl (h1 ▸ hx)
          · exact Or.inr h2
    · rw [if_neg hx, ih]
      simp only [List.mem_append, List.mem_singleton, List.mem_cons]
      tauto

/-- Membership in `fully_processed` for an attempted video with a unique
attempts entry. -/
theorem mem_fully_processed (pbp abv : List (String × List String))
    (vid : String) (att : List String) (hmem : (vid, att) ∈ abv)
    (hnodup : (abv.map Prod.fst).Nodup) :
    vid ∈ fully_processed pbp abv ↔
      (all_platforms_attempted att = true ∧ any_platform_success pbp vid = true) := by
  unfold fully_processed
  rw [List.mem_map]
  constructor
  · rintro ⟨x, hx, hx1⟩
    have hxin : x ∈ abv := (List.mem_filter.mp hx).1
    have hcond := (List.mem_filter.mp hx).2
    have : x = (vid, att) := by
      have hx2 : x = (x.1, x.2) := rfl
      have : x.2 = att := assoc_value_eq_of_nodup abv hnodup (hx1 ▸ hx2 ▸ hxin) hmem
      rw [hx2, hx1, this]
    rw [this] at hcond
    simp only [Bool.and_eq_true] at hcond
    exact hcond
  · rintro ⟨h1, h2⟩
    refine ⟨(vid, att), List.mem_filter.mpr ⟨hmem, ?_⟩, rfl⟩
    simp only [Bool.and_eq_true]
    exact ⟨h1, h2⟩

/-- C1: after `_update_queue_manager_status` processes a delivery cycle, an
attempted item not previously posted is marked posted in the status ledger
iff every configured platform was attempted for it and at least one platform
delivery succeeded; full attempt coverage with zero successes leaves it
unposted for the next cycle. -/
theorem C1_completion_policy (pbp abv : List (String × List String))
    (seen : List (String × SeenRecord)) (status : SummaryStatus)
    (now vid : String) (att : List String) (hmem : (vid, att) ∈ abv)
    (hnodup : (abv.map Prod.fst).Nodup) (hold : vid ∉ status.posted) :
    vid ∈ (update_queue_manager_status pbp abv seen status now).2.posted ↔
      ((∀ p ∈ PLATFORMS, p ∈ att) ∧ ∃ pr ∈ pbp, vid ∈ pr.2) := by
  unfold update_queue_manager_status
  rw [mem_mark_as_posted, mem_fully_processed pbp abv vid att hmem hnodup]
  have hatt : all_platforms_attempted att = true ↔ ∀ p ∈ PLATFORMS, p ∈ att := by
    simp [all_platforms_attempted]
  have hsucc : any_platform_success pbp vid = true ↔ ∃ pr ∈ pbp, vid ∈ pr.2 := by
    simp [any_platform_success]
  constructor
  · rintro (h | ⟨h1, h2⟩)
    · exact absurd h hold
    · exact ⟨hatt.mp h1, hsucc.mp h2⟩
  · rintro ⟨h1, h2⟩
    exact Or.inr ⟨hatt.mpr h1, hsucc.mpr h2⟩

/-- C1 witness: all three platforms attempted and one success marks the item
posted; all attempted with zero successes leaves it unposted. -/
theorem C1_completion_policy_witness :
    (((("v1"), PLATFORMS) ∈ ([(("v1"), PLATFORMS)] : List (String × List String))) ∧
      (("v1") ∈ (update_queue_manager_status
        [(("twitter"), [("v1")]), (("facebook"), []), (("telegram"), [])]
        [(("v1"), PLATFORMS)] [] (init_summary_status ("d")) ("t")).2.posted)) ∧
    ¬ (("v1") ∈ (update_queue_manager_status
        [(("twitter"), []), (("facebook"), []), (("telegram"), [])]
        [(("v1"), PLATFORMS)] [] (init_summary_status ("d")) ("t")).2.posted) :=
  ⟨⟨by decide,
    (C1_completion_policy
        [(("twitter"), [("v1")]), (("facebook"), []), (("telegram"), [])]
        [(("v1"), PLATFORMS)] [] (init_summary_status ("d")) ("t") ("v1") PLATFORMS
        (by decide) (by decide) (by decide)).mpr
      ⟨by decide, (("twitter"), [("v1")]), by decide, by decide⟩⟩,
   fun h =>
    by
      have := (C1_completion_policy
          [(("twitter"), []), (("facebook"), []), (("telegram"), [])]
          [(("v1"), PLATFORMS)] [] (init_summary_status ("d")) ("t") ("v1") PLATFORMS
          (by decide) (by decide) (by decide)).mp h
      rcases this.2 with ⟨pr, hpr, hv⟩
      have hpr2 : pr.2 = [] := by
        simp only [List.mem_cons, List.not_mem_nil, or_false] at hpr
        rcases hpr with h1 | h1 | h1 <;> rw [h1]
      rw [hpr2] at hv
      cases hv⟩

/-- A `contains` test that comes out false is exactly non-membership. -/
theorem contains_false_iff (l : List String) (a : String) :
    (l.contains a = false) ↔ a ∉ l := by
  constructor
  · intro h hmem
    have h2 : l.contains a = true := List.elem_iff.mpr hmem
    rw [h] at h2
    cases h2
  · intro hmem
    cases hcc : l.contains a
    · rfl
    · exact absurd (List.elem_iff.mp hcc) hmem

/-- C2 counterexample: the seen-videos ledger records `v1` as already posted
to twitter, yet with an empty daily log (e.g. after a date rollover) and a
freshly reset status file the cycle reaches the delivery attempt for
(`v1`, twitter): the skip decision is not taken from the ledger. -/
theorem C2_counterexample :
    ledger_records_posted
      ⟨[(("v1"), ⟨("Video v1"), ("posted"), [("twitter")], some ("t1")⟩)],
        init_summary_status ("2025-01-02"), [], [("v1_News.json")]⟩
      ("v1") ("twitter") = true ∧
    cycle_attempts_pair
      ⟨[(("v1"), ⟨("Video v1"), ("posted"), [("twitter")], some ("t1")⟩)],
        init_summary_status ("2025-01-02"), [], [("v1_News.json")]⟩
      ("2025-01-02") ("v1") ("twitter") false = true := by
  refine ⟨by decide, by decide⟩

/-- C2 amended: without the force flag, the (item, destination) skip decision
is taken from the daily observability log (per destination) together with
the summary status file's posted list (per item) — not from the seen-videos
ledger: the pair is attempted iff some summary file derives the item's
(non-empty) id, the item is not in the loaded status file's posted list, and
the daily log does not record the item for that destination; in particular a
pair recorded in the daily log is skipped. -/
theorem C2_dedup_source (st : SchedState) (today vid pl : String) :
    (cycle_attempts_pair st today vid pl false = true ↔
      ((∃ f ∈ st.summaryFiles, extract_video_id f = vid ∧ vid ≠ ("")) ∧
        vid ∉ (load_summary_status st.statusFile today).posted ∧
        vid ∉ get_posted_videos st.dailyPosted pl)) ∧
    (vid ∈ get_posted_videos st.dailyPosted pl →
      cycle_attempts_pair st today vid pl false = false) := by
  have hmain : cycle_attempts_pair st today vid pl false = true ↔
      ((∃ f ∈ st.summaryFiles, extract_video_id f = vid ∧ vid ≠ ("")) ∧
        vid ∉ (load_summary_status st.statusFile today).posted ∧
        vid ∉ get_posted_videos st.dailyPosted pl) := by
    unfold cycle_attempts_pair get_unposted_summaries get_summary_files
      should_post_to_platform
    simp only [Bool.and_eq_true, List.any_eq_true, List.mem_filter,
      List.mem_filterMap, Bool.false_eq_true, if_false, Bool.not_eq_true',
      contains_false_iff, decide_eq_true_eq]
    constructor
    · rintro ⟨⟨p, ⟨⟨f, hf, hsome⟩, hpost⟩, hp1⟩, hdaily⟩
      by_cases hz : extract_video_id f = ("")
      · rw [if_pos hz] at hsome; cases hsome
      · rw [if_neg hz] at hsome
        cases hsome
        subst hp1
        exact ⟨⟨f, hf, rfl, hz⟩, hpost, hdaily⟩
    · rintro ⟨⟨f, hf, hfv, hvne⟩, hpost, hdaily⟩
      refine ⟨⟨(vid, f), ⟨⟨f, hf, ?_⟩, hpost⟩, rfl⟩, hdaily⟩
      rw [if_neg (hfv ▸ hvne), hfv]
  refine ⟨hmain, ?_⟩
  intro hmem
  cases hcc : cycle_attempts_pair st today vid pl false
  · rfl
  · exact absurd (hmain.mp hcc).2.2 (by simp [hmem])

/-- C2 witness: a pair recorded in the daily log for twitter is skipped by
the cycle. -/
theorem C2_dedup_source_witness :
    (("v1") ∈ get_posted_videos [(("twitter"), [("v1")])] ("twitter")) ∧
    cycle_attempts_pair
      ⟨[], init_summary_status ("d"), [(("twitter"), [("v1")])], [("v1_News.json")]⟩
      ("d") ("v1") ("twitter") false = false :=
  ⟨by decide,
   (C2_dedup_source
      ⟨[], init_summary_status ("d"), [(("twitter"), [("v1")])], [("v1_News.json")]⟩
      ("d") ("v1") ("twitter")).2 (by decide)⟩

/-- One step of the fix-retry recursion, with the recursive call abstracted:
`retry = some r` stands for the result of the next attempt when the retry
guard allows one, `none` when the bound is exhausted. -/
def cf_step (resp : FixResp) (retry : Option (Option Json × Nat × Nat)) :
    Option Json × Nat × Nat :=
  match resp with
  | FixResp.ok text =>
    (match jsonLoads text with
     | some j => (some j, 1, 0)
     | none =>
       match extract_json_objects text with
       | x :: _ => (some x, 1, 0)
       | [] =>
         match retry with
         | some r => (r.1, r.2.1 + 1, r.2.2 + RETRY_DELAY)
         | none => (none, 1, 0))
  | _ =>
    match retry with
    | some r => (r.1, r.2.1 + 1, r.2.2 + RETRY_DELAY)
    | none => (none, 1, 0)

/-- Unfolding equation for `call_claude_fix` in terms of `cf_step`. -/
theorem call_claude_fix_eq (oracle : Nat → FixResp) (k : Nat) :
    call_claude_fix oracle k
      = cf_step (oracle k)
          (if k < FIX_MAX_RETRIES - 1 then some (call_claude_fix oracle (k + 1))
           else none) := by
  rw [call_claude_fix]
  by_cases hk : k < FIX_MAX_RETRIES - 1
  · cases hc : oracle k <;>
      simp only [cf_step, dif_pos hk, if_pos hk]
  · cases hc : oracle k <;>
      simp only [cf_step, dif_neg hk, if_neg hk]

/-- Invariants of the fix-retry recursion, by induction on the remaining
retry budget: attempts are positive and bounded by the budget, total sleep
is the fixed delay once per retry, and if every attempt fails the result is
`none`. -/
theorem cf_props (oracle : Nat → FixResp) :
    ∀ (d k : Nat), FIX_MAX_RETRIES - 1 - k = d →
      1 ≤ (call_claude_fix oracle k).2.1 ∧
      (call_claude_fix oracle k).2.1 ≤ d + 1 ∧
      ((call_claude_fix oracle k).2.2
        = RETRY_DELAY * ((call_claude_fix oracle k).2.1 - 1)) ∧
      ((∀ n, attempt_fails (oracle n) = true) →
        (call_claude_fix oracle k).1 = none) := by
  intro d
  induction d with
  | zero =>
    intro k hk
    have hlt : ¬ k < FIX_MAX_RETRIES - 1 := by omega
    rw [call_claude_fix_eq, if_neg hlt]
    cases hc : oracle k with
    | ok text =>
      cases hj : jsonLoads text with
      | some j =>
        refine ⟨by simp [cf_step, hj], by simp [cf_step, hj],
          by simp [cf_step, hj], ?_⟩
        intro hall
        have := hall k
        simp [attempt_fails, hc, hj] at this
      | none =>
        cases he : extract_json_objects text with
        | cons x xs =>
          refine ⟨by simp [cf_step, hj, he], by simp [cf_step, hj, he],
            by simp [cf_step, hj, he], ?_⟩
          intro hall
          have := hall k
          simp [attempt_fails, hc, hj, he] at this
        | nil =>
          refine ⟨by simp [cf_step, hj, he], by simp [cf_step, hj, he],
            by simp [cf_step, hj, he], fun _ => by simp [cf_step, hj, he]⟩
    | httpError =>
      exact ⟨by simp [cf_step], by simp [cf_step], by simp [cf_step],
        fun _ => by simp [cf_step]⟩
    | exn =>
      exact ⟨by simp [cf_step], by simp [cf_step], by simp [cf_step],
        fun _ => by simp [cf_step]⟩
  | succ d ih =>
    intro k hk
    have hlt : k < FIX_MAX_RETRIES - 1 := by omega
    have ihk := ih (k + 1) (by omega)
    rcases ihk with ⟨ih1, ih2, ih3, ih4⟩
    have harith : (call_claude_fix oracle (k + 1)).2.2 + RETRY_DELAY
        = RETRY_DELAY * ((call_claude_fix oracle (k + 1)).2.1 + 1 - 1) := by
      rw [ih3]
      simp only [RETRY_DELAY]
      omega
    rw [call_claude_fix_eq, if_pos hlt]
    cases hc : oracle k with
    | ok text =>
      cases hj : jsonLoads text with
      | some j =>
        refine ⟨by simp [cf_step, hj], by simp [cf_step, hj],
          by simp [cf_step, hj], ?_⟩
        intro hall
        have := hall k
        simp [attempt_fails, hc, hj] at this
      | none =>
        cases he : extract_json_objects text with
        | cons x xs =>
          refine ⟨by simp [cf_step, hj, he], by simp [cf_step, hj, he],
            by simp [cf_step, hj, he], ?_⟩
          intro hall
          have := hall k
          simp [attempt_fails, hc, hj, he] at this
        | nil =>
          refine ⟨by simp [cf_step, hj, he], ?_, ?_, ?_⟩
          · simp only [cf_step, hj, he]
            omega
          · simp only [cf_step, hj, he]
            exact harith
          · intro hall
            simp only [cf_step, hj, he]
            exact ih4 hall
    | httpError =>
      refine ⟨by simp [cf_step], ?_, ?_, ?_⟩
      · simp only [cf_step]
        omega
      · simp only [cf_step]
        exact harith
      · intro hall
        simp only [cf_step]
        exact ih4 hall
    | exn =>
      refine ⟨by simp [cf_step], ?_, ?_, ?_⟩
      · simp only [cf_step]
        omega
      · simp only [cf_step]
        exact harith
      · intro hall
        simp only [cf_step]
        exact ih4 hall

/-- C8: the corrective fix call performs at most `MAX_RETRIES` (3) attempts
in total, sleeps the fixed `RETRY_DELAY` exactly once between consecutive
attempts, and — despite the retry being implemented by recursion — always
terminates (the recursion is well founded by the shrinking retry budget),
returning `None` to the caller when every attempt fails. -/
theorem C8_fix_retry_bound (oracle : Nat → FixResp) :
    ((call_claude_fix oracle 0).2.1 ≤ FIX_MAX_RETRIES) ∧
    ((call_claude_fix oracle 0).2.2
      = RETRY_DELAY * ((call_claude_fix oracle 0).2.1 - 1)) ∧
    ((∀ n, attempt_fails (oracle n) = true) →
      (call_claude_fix oracle 0).1 = none) := by
  have h := cf_props oracle (FIX_MAX_RETRIES - 1 - 0) 0 rfl
  refine ⟨?_, h.2.2.1, h.2.2.2⟩
  have := h.2.1
  simp only [FIX_MAX_RETRIES] at this ⊢
  omega

/-- C8 witness: an oracle whose every attempt returns a non-200 response
makes the fix call return `None`. -/
theorem C8_fix_retry_bound_witness :
    (∀ n, attempt_fails ((fun (_ : Nat) => FixResp.httpError) n) = true) ∧
    (call_claude_fix (fun (_ : Nat) => FixResp.httpError) 0).1 = none :=
  ⟨fun _ => rfl,
   (C8_fix_retry_bound (fun (_ : Nat) => FixResp.httpError)).2.2 (fun _ => rfl)⟩

/-- On a dict section, the required-field loop returns exactly one
`Missing field:` violation per absent field. -/
theorem fieldPresenceErrors_obj (fields : List String) (kvs : List (String × Json)) :
    fieldPresenceErrors fields (Json.obj kvs)
      = some ((fields.filter (fun f => !(kvs.any (fun kv => kv.1 = f)))).map
          (fun f => ("Missing field: ") ++ f)) := by
  induction fields with
  | nil => rfl
  | cons f fs ih =>
    by_cases h : kvs.any (fun kv => kv.1 = f) <;>
      simp [fieldPresenceErrors, pyIn, ih, h]

/-- If the required-field loop reports no violation, every field tested in
`field in section` came out true. -/
theorem fieldPresenceErrors_nil_all (fields : List String) (sec : Json)
    (h : fieldPresenceErrors fields sec = some []) :
    ∀ f ∈ fields, pyIn f sec = some true := by
  induction fields with
  | nil => intro f hf; cases hf
  | cons g gs ih =>
    intro f hf
    cases hb : pyIn g sec with
    | none => rw [fieldPresenceErrors, hb] at h; cases h
    | some b =>
      cases hrest : fieldPresenceErrors gs sec with
      | none => rw [fieldPresenceErrors, hb, hrest] at h; cases h
      | some rest =>
        rw [fieldPresenceErrors, hb, hrest] at h
        have h2 : (if b = true then rest
            else (("Missing field: ") ++ g) :: rest) = [] := by
          simpa using h
        have hb2 : b = true := by
          by_contra hbf
          rw [if_neg hbf] at h2
          cases h2
        rw [if_pos hb2] at h2
        rcases List.mem_cons.mp hf with h3 | h3
        · rw [h3, hb, hb2]
        · exact ih (h2 ▸ hrest) f h3

/-- On a non-dict section whose `in` test is still defined (string or list),
any field that tests present makes the list-type loop raise (`none`),
because indexing the section with a string is a `TypeError`. -/
theorem listTypeErrors_nonobj_none (fields : List String) (sec : Json)
    (hget : ∀ f, pyGet sec f = none)
    (hin : ∀ f, ∃ b, pyIn f sec = some b) :
    (∃ f ∈ fields, pyIn f sec = some true) → listTypeErrors fields sec = none := by
  induction fields with
  | nil => rintro ⟨f, hf, _⟩; cases hf
  | cons g gs ih =>
    rintro ⟨f, hf, htrue⟩
    rcases hin g with ⟨b, hb⟩
    cases b with
    | true => rw [listTypeErrors, hb, hget g]
    | false =>
      rw [listTypeErrors, hb]
      rcases List.mem_cons.mp hf with h3 | h3
      · rw [h3] at htrue; rw [hb] at htrue; cases htrue
      · exact ih ⟨f, h3, htrue⟩

/-- A Boolean `is a JSON array` match is the existence of the array. -/
theorem isArrOpt_iff (o : Option Json) :
    ((match o with
      | some (Json.arr _) => true
      | _ => false) = true) ↔ ∃ xs, o = some (Json.arr xs) := by
  cases o with
  | none => simp
  | some v => cases v <;> simp

/-- On a dict section, the list-type loop returns a (violation-free iff every
present list field is an array) result and never raises. -/
theorem listTypeErrors_obj (fields : List String) (kvs : List (String × Json)) :
    ∃ errs, listTypeErrors fields (Json.obj kvs) = some errs ∧
      (errs = [] ↔ ∀ f ∈ fields, (kvs.any (fun kv => kv.1 = f)) = true →
        ∃ xs, (kvs.find? (fun kv => kv.1 = f)).map Prod.snd
          = some (Json.arr xs)) := by
  induction fields with
  | nil => exact ⟨[], rfl, by simp⟩
  | cons f fs ih =>
    rcases ih with ⟨rest, hrest, hiff⟩
    by_cases h : kvs.any (fun kv => kv.1 = f)
    · have hfind : (kvs.find? (fun kv => kv.1 = f)).isSome := by
        rw [List.find?_isSome]
        rcases List.any_eq_true.mp h with ⟨x, hx, hpx⟩
        exact ⟨x, hx, hpx⟩
      rcases Option.isSome_iff_exists.mp hfind with ⟨v, hv⟩
      cases harr : v.2 with
      | arr xs =>
        refine ⟨rest, ?_, ?_⟩
        · rw [listTypeErrors, pyIn, h]
          simp [pyGet, hv, hrest, harr]
        · rw [hiff]
          constructor
          · intro hall g hg hgany
            rcases List.mem_cons.mp hg with h3 | h3
            · subst h3; exact ⟨xs, by rw [hv]; simp [harr]⟩
            · exact hall g h3 hgany
          · intro hall g hg hgany
            exact hall g (List.mem_cons_of_mem _ hg) hgany
      | null =>
        refine ⟨(("Field ") ++ f ++ (" is not a list")) :: rest, ?_, ?_⟩
        · rw [listTypeErrors, pyIn, h]
          simp [pyGet, hv, hrest, harr]
        · constructor
          · intro hcon; cases hcon
          · intro hall
            exfalso
            rcases hall f (by simp) h with ⟨xs, hxs⟩
            rw [hv] at hxs
            have hxs2 : v.2 = Json.arr xs := by simpa using hxs
            rw [harr] at hxs2
            cases hxs2
      | bool b =>
        refine ⟨(("Field ") ++ f ++ (" is not a list")) :: rest, ?_, ?_⟩
        · rw [listTypeErrors, pyIn, h]
          simp [pyGet, hv, hrest, harr]
        · constructor
          · intro hcon; cases hcon
          · intro hall
            exfalso
            rcases hall f (by simp) h with ⟨xs, hxs⟩
            rw [hv] at hxs
            have hxs2 : v.2 = Json.arr xs := by simpa using hxs
            rw [harr] at hxs2
            cases hxs2
      | num n =>
        refine ⟨(("Field ") ++ f ++ (" is not a list")) :: rest, ?_, ?_⟩
        · rw [listTypeErrors, pyIn, h]
          simp [pyGet, hv, hrest, harr]
        · constructor
          · intro hcon; cases hcon
          · intro hall
            exfalso
            rcases hall f (by simp) h with ⟨xs, hxs⟩
            rw [hv] at hxs
            have hxs2 : v.2 = Json.arr xs := by simpa using hxs
            rw [harr] at hxs2
            cases hxs2
      | str s =>
        refine ⟨(("Field ") ++ f ++ (" is not a list")) :: rest, ?_, ?_⟩
        · rw [listTypeErrors, pyIn, h]
          simp [pyGet, hv, hrest, harr]
        · constructor
          · intro hcon; cases hcon
          · intro hall
            exfalso
            rcases hall f (by simp) h with ⟨xs, hxs⟩
            rw [hv] at hxs
            have hxs2 : v.2 = Json.arr xs := by simpa using hxs
            rw [harr] at hxs2
            cases hxs2
      | obj o =>
        refine ⟨(("Field ") ++ f ++ (" is not a list")) :: rest, ?_, ?_⟩
        · rw [listTypeErrors, pyIn, h]
          simp [pyGet, hv, hrest, harr]
        · constructor
          · intro hcon; cases hcon
          · intro hall
            exfalso
            rcases hall f (by simp) h with ⟨xs, hxs⟩
            rw [hv] at hxs
            have hxs2 : v.2 = Json.arr xs := by simpa using hxs
            rw [harr] at hxs2
            cases hxs2
    · refine ⟨rest, ?_, ?_⟩
      · rw [listTypeErrors, pyIn]
        simp only [h, Bool.false_eq_true, if_false]
        exact hrest
      · rw [hiff]
        constructor
        · intro hall g hg hgany
          rcases List.mem_cons.mp hg with h3 | h3
          · subst h3
            rw [hgany] at h
            exact absurd rfl h
          · exact hall g h3 hgany
        · intro hall g hg hgany
          exact hall g (List.mem_cons_of_mem _ hg) hgany

/-- The top-level field check passes exactly when both `title` and
`podcaster` are present. -/
theorem topFieldErrors_nil (summary : List (String × Json)) :
    topFieldErrors summary = [] ↔
      ((summary.any (fun kv => kv.1 = ("title"))) = true ∧
        (summary.any (fun kv => kv.1 = ("podcaster"))) = true) := by
  by_cases h1 : summary.any (fun kv => kv.1 = ("title")) <;>
    by_cases h2 : summary.any (fun kv => kv.1 = ("podcaster")) <;>
      simp [topFieldErrors, h1, h2]

/-- The missing-field violations over a dict section vanish exactly when all
fields are present. -/
theorem requiredErrors_nil (fields : List String) (kvs : List (String × Json)) :
    ((fields.filter (fun f => !(kvs.any (fun kv => kv.1 = f)))).map
        (fun f => ("Missing field: ") ++ f)) = [] ↔
      ∀ f ∈ fields, (kvs.any (fun kv => kv.1 = f)) = true := by
  rw [List.map_eq_nil_iff, List.filter_eq_nil_iff]
  simp

/-- Reduction of `validate_summary` when the summary key is present. -/
theorem validate_summary_eq_of_find (summary : List (String × Json)) (sec : Json)
    (hfind : (summary.find? (fun kv => kv.1 = ("summary"))).map Prod.snd
      = some sec) :
    validate_summary summary
      = (match fieldPresenceErrors REQUIRED_FIELDS sec with
         | none => none
         | some errs2 =>
           match listTypeErrors LIST_FIELDS sec with
           | none => none
           | some errs3 => some (topFieldErrors summary ++ errs2 ++ errs3)) := by
  unfold validate_summary
  rw [hfind]

/-- Reduction of `validate_summary` when the summary key is absent. -/
theorem validate_summary_eq_of_none (summary : List (String × Json))
    (hfind : (summary.find? (fun kv => kv.1 = ("summary"))).map Prod.snd
      = none) :
    validate_summary summary
      = some (topFieldErrors summary ++ [("Missing summary section")]) := by
  unfold validate_summary
  rw [hfind]

/-- Reduction of `spec_record_valid` when the summary key is present. -/
theorem spec_record_valid_eq_of_find (summary : List (String × Json)) (sec : Json)
    (hfind : (summary.find? (fun kv => kv.1 = ("summary"))).map Prod.snd
      = some sec) :
    spec_record_valid summary
      = ((summary.any (fun kv => kv.1 = ("title"))) &&
         ((summary.any (fun kv => kv.1 = ("podcaster"))) &&
          summary_section_ok (some sec))) := by
  unfold spec_record_valid
  rw [hfind, Bool.and_assoc]

/-- Reduction of `spec_record_valid` when the summary key is absent. -/
theorem spec_record_valid_eq_of_none (summary : List (String × Json))
    (hfind : (summary.find? (fun kv => kv.1 = ("summary"))).map Prod.snd
      = none) :
    spec_record_valid summary = false := by
  unfold spec_record_valid
  rw [hfind]
  simp [summary_section_ok]

/-- Each list-typed sub-field is one of the five required sub-fields. -/
theorem list_fields_subset : ∀ f ∈ LIST_FIELDS, f ∈ REQUIRED_FIELDS := by
  intro f hf
  simp only [LIST_FIELDS, List.mem_cons, List.not_mem_nil, or_false] at hf
  rcases hf with h | h | h <;> subst h <;> decide

/-- C5: `validate_summary` returns the empty violation list iff the record
has all required top-level fields, a nested summary object with all five
required sub-fields, and every sequence-typed field actually a sequence
(`spec_record_valid`, written from the spec's words); moreover a record
whose summary object lacks `why_this_matters` gets a violation naming it. -/
theorem C5_validator (summary : List (String × Json)) :
    (validate_summary summary = some [] ↔ spec_record_valid summary = true) ∧
    (∀ kvs, (summary.find? (fun kv => kv.1 = ("summary"))).map Prod.snd
        = some (Json.obj kvs) →
      (kvs.any (fun kv => kv.1 = ("why_this_matters"))) = false →
      ∃ errs, validate_summary summary = some errs ∧
        (("Missing field: why_this_matters")) ∈ errs) := by
  constructor
  · cases hfind : (summary.find? (fun kv => kv.1 = ("summary"))).map Prod.snd with
    | none =>
      rw [validate_summary_eq_of_none summary hfind,
        spec_record_valid_eq_of_none summary hfind]
      constructor
      · intro h; simp at h
      · intro h; simp at h
    | some sec =>
      rw [validate_summary_eq_of_find summary sec hfind,
        spec_record_valid_eq_of_find summary sec hfind]
      cases sec with
      | obj kvs =>
        rw [fieldPresenceErrors_obj]
        rcases listTypeErrors_obj LIST_FIELDS kvs with ⟨errs3, h3, hiff3⟩
        rw [h3]
        have hsec : summary_section_ok (some (Json.obj kvs)) = true ↔
            ((∀ f ∈ REQUIRED_FIELDS, (kvs.any (fun kv => kv.1 = f)) = true) ∧
             (∀ f ∈ LIST_FIELDS, ∃ xs,
               (kvs.find? (fun kv => kv.1 = f)).map Prod.snd
                 = some (Json.arr xs))) := by
          simp only [summary_section_ok, Bool.and_eq_true, List.all_eq_true]
          constructor
          · rintro ⟨h1, h2⟩
            exact ⟨h1, fun f hf => (isArrOpt_iff _).mp (h2 f hf)⟩
          · rintro ⟨h1, h2⟩
            exact ⟨h1, fun f hf => (isArrOpt_iff _).mpr (h2 f hf)⟩
        simp only [Option.some_inj, List.append_eq_nil, Bool.and_eq_true]
        rw [topFieldErrors_nil, requiredErrors_nil, hsec]
        constructor
        · rintro ⟨⟨⟨ht, hp⟩, hreq⟩, herrs3⟩
          refine ⟨ht, hp, hreq, fun f hf => ?_⟩
          exact hiff3.mp herrs3 f hf (hreq f (list_fields_subset f hf))
        · rintro ⟨ht, hp, hreq, harr⟩
          exact ⟨⟨⟨ht, hp⟩, hreq⟩, hiff3.mpr (fun f hf _ => harr f hf)⟩
      | str s =>
        constructor
        · intro h
          cases hf : fieldPresenceErrors REQUIRED_FIELDS (Json.str s) with
          | none => rw [hf] at h; simp at h
          | some errs2 =>
            rw [hf] at h
            cases hl : listTypeErrors LIST_FIELDS (Json.str s) with
            | none => rw [hl] at h; simp at h
            | some errs3 =>
              rw [hl] at h
              have hnil : topFieldErrors summary ++ errs2 ++ errs3 = [] := by
                simpa using h
              have h2 : errs2 = [] :=
                (List.append_eq_nil.mp
                  ((List.append_eq_nil.mp
                    ((List.append_assoc _ _ _) ▸ hnil)).2)).1
              subst h2
              have htt : pyIn ("top_takeaways") (Json.str s) = some true :=
                fieldPresenceErrors_nil_all REQUIRED_FIELDS (Json.str s) hf
                  ("top_takeaways") (by decide)
              have hnone : listTypeErrors LIST_FIELDS (Json.str s) = none :=
                listTypeErrors_nonobj_none LIST_FIELDS (Json.str s)
                  (fun f => rfl) (fun f => ⟨_, rfl⟩)
                  ⟨("top_takeaways"), by decide, htt⟩
              rw [hnone] at hl
              cases hl
        · intro h
          simp [summary_section_ok] at h
      | arr xs =>
        constructor
        · intro h
          cases hf : fieldPresenceErrors REQUIRED_FIELDS (Json.arr xs) with
          | none => rw [hf] at h; simp at h
          | some errs2 =>
            rw [hf] at h
            cases hl : listTypeErrors LIST_FIELDS (Json.arr xs) with
            | none => rw [hl] at h; simp at h
            | some errs3 =>
              rw [hl] at h
              have hnil : topFieldErrors summary ++ errs2 ++ errs3 = [] := by
                simpa using h
              have h2 : errs2 = [] :=
                (List.append_eq_nil.mp
                  ((List.append_eq_nil.mp
                    ((List.append_assoc _ _ _) ▸ hnil)).2)).1
              subst h2
              have htt : pyIn ("top_takeaways") (Json.arr xs) = some true :=
                fieldPresenceErrors_nil_all REQUIRED_FIELDS (Json.arr xs) hf
                  ("top_takeaways") (by decide)
              have hnone : listTypeErrors LIST_FIELDS (Json.arr xs) = none :=
                listTypeErrors_nonobj_none LIST_FIELDS (Json.arr xs)
                  (fun f => rfl) (fun f => ⟨_, rfl⟩)
                  ⟨("top_takeaways"), by decide, htt⟩
              rw [hnone] at hl
              cases hl
        · intro h
          simp [summary_section_ok] at h
      | null =>
        constructor
        · intro h
          rw [show fieldPresenceErrors REQUIRED_FIELDS Json.null = none from rfl]
            at h
          simp at h
        · intro h
          simp [summary_section_ok] at h
      | bool b =>
        constructor
        · intro h
          rw [show fieldPresenceErrors REQUIRED_FIELDS (Json.bool b) = none
            from rfl] at h
          simp at h
        · intro h
          simp [summary_section_ok] at h
      | num n =>
        constructor
        · intro h
          rw [show fieldPresenceErrors REQUIRED_FIELDS (Json.num n) = none
            from rfl] at h
          simp at h
        · intro h
          simp [summary_section_ok] at h
  · intro kvs hfind habs
    rcases listTypeErrors_obj LIST_FIELDS kvs with ⟨errs3, h3, _⟩
    refine ⟨topFieldErrors summary
        ++ ((REQUIRED_FIELDS.filter
              (fun f => !(kvs.any (fun kv => kv.1 = f)))).map
            (fun f => ("Missing field: ") ++ f))
        ++ errs3, ?_, ?_⟩
    · rw [validate_summary_eq_of_find summary (Json.obj kvs) hfind,
        fieldPresenceErrors_obj, h3]
    · refine List.mem_append_left _ (List.mem_append_right _ ?_)
      refine List.mem_map.mpr ⟨("why_this_matters"), ?_, rfl⟩
      refine List.mem_filter.mpr ⟨by decide, by simp [habs]⟩

/-- C5 witness: a record whose summary object lacks `why_this_matters` gets a
violation naming that field. -/
theorem C5_validator_witness :
    (("Missing field: why_this_matters")) ∈
      (validate_summary
        [(("title"), Json.str ("t")), (("podcaster"), Json.str ("p")),
         (("summary"), Json.obj
           [(("essence"), Json.str ("e")),
            (("top_takeaways"), Json.arr []),
            (("game_changing_ideas"), Json.arr []),
            (("things_you_can_do"), Json.arr [])])]).getD [] := by
  rcases (C5_validator
      [(("title"), Json.str ("t")), (("podcaster"), Json.str ("p")),
       (("summary"), Json.obj
         [(("essence"), Json.str ("e")),
          (("top_takeaways"), Json.arr []),
          (("game_changing_ideas"), Json.arr []),
          (("things_you_can_do"), Json.arr [])])]).2
      [(("essence"), Json.str ("e")),
       (("top_takeaways"), Json.arr []),
       (("game_changing_ideas"), Json.arr []),
       (("things_you_can_do"), Json.arr [])] rfl rfl with ⟨errs, heq, hmem⟩
  rw [heq]
  simpa using hmem

/-- C6 counterexample: the input has no sentinel and exactly two balanced
top-level brace spans, the second with a trailing comma before its closing
brace, yet the chain yields one candidate, not two: the first span stays
unparseable even after the mechanical repairs, which the claim's wording
("for every input text ...") does not exclude. -/
theorem C6_counterexample :
    containsSub SENTINEL ("\x7b]\x7d\n\x7b\"b\": 2,\x7d").toList = false ∧
    jsonLoads (fix_common_json_errors ("\x7b]\x7d")) = none ∧
    (extract_with_robust_fallback ("\x7b]\x7d\n\x7b\"b\": 2,\x7d") 2).length
      = 1 := by
  refine ⟨rfl, rfl, rfl⟩

/-- C6 amended: on the scenario input — no sentinel, two balanced top-level
spans that are valid JSON except for the trailing comma in the second — the
strict strategies of `extract_json_objects` recover only the well-formed
record; the trailing-comma span parses only after `fix_common_json_errors`
repairs it (the same pass also quotes bare keys), so the chain as driven by
`summarize_batch` (strict extraction, then the aggressive-recovery re-run on
a short count) yields exactly the two candidate records. -/
theorem C6_extraction_chain :
    containsSub SENTINEL ("\x7b\"a\": 1\x7d\n\x7b\"b\": 2,\x7d").toList = false ∧
    extract_json_objects ("\x7b\"a\": 1\x7d\n\x7b\"b\": 2,\x7d")
      = [Json.obj [(("a"), Json.num 1)]] ∧
    jsonLoads ("\x7b\"b\": 2,\x7d") = none ∧
    fix_common_json_errors ("\x7b\"b\": 2,\x7d") = ("\x7b\"b\": 2\x7d") ∧
    fix_common_json_errors ("\x7bb: 2,\x7d") = ("\x7b\"b\": 2\x7d") ∧
    jsonLoads (fix_common_json_errors ("\x7b\"b\": 2,\x7d"))
      = some (Json.obj [(("b"), Json.num 2)]) ∧
    parse_robust_json ("\x7b\"a\": 1\x7d\n\x7b\"b\": 2,\x7d")
      = [Json.obj [(("a"), Json.num 1)], Json.obj [(("b"), Json.num 2)]] ∧
    extract_with_robust_fallback ("\x7b\"a\": 1\x7d\n\x7b\"b\": 2,\x7d") 2
      = [Json.obj [(("a"), Json.num 1)], Json.obj [(("b"), Json.num 2)]] := by
  refine ⟨rfl, rfl, rfl, rfl, rfl, rfl, rfl, rfl⟩
